import Mathlib

/-!
Verification of the PromptVault encrypted local-first sync engine.

Shallow embedding of:
- `src/lib/crypto.ts` (base64 packing, envelope encrypt/decrypt, PIN verifier),
- `src/lib/gist.ts` (remote blob store over the GitHub Gist API),
- the `MainApp` orchestration layer (bootstrap `init`, debounced `saveToCloud`,
  `importData`).

Platform primitives that are not part of the repository (Web Crypto AES-GCM,
PBKDF2, `TextEncoder`, `JSON.stringify`) are modelled explicitly; every such
definition carries a doc comment starting `Modelled from the spec:`.
Bytes are `Nat` values `< 256`; fallible operations return `Option`.
-/

namespace PromptVault

/-- Predicate: every element of the list is a byte (`< 256`). -/
def allBytes (l : List Nat) : Prop := ∀ b ∈ l, b < 256

instance (l : List Nat) : Decidable (allBytes l) := by
  unfold allBytes; infer_instance

/-! ### Text encoding

Modelled from the spec: `TextEncoder().encode` / `TextDecoder().decode`
(§4.1 "binary-safe encoding"): an injective byte encoding of strings.  Each
character's codepoint (< 0x110000) is encoded as three big-endian base-256
digits; decoding rejects byte lists that are not the image of a string. -/

/-- Three-byte big-endian encoding of one character's codepoint. -/
def textEncodeChar (c : Char) : List Nat :=
  [c.toNat / 65536, c.toNat / 256 % 256, c.toNat % 256]

/-- Concatenated character encodings. -/
def textEncodeList : List Char → List Nat
  | [] => []
  | c :: cs => textEncodeChar c ++ textEncodeList cs

/-- Modelled from the spec: the text-to-bytes step of the envelope. -/
def textEncode (s : String) : List Nat := textEncodeList s.data

/-- Partial inverse of `textEncodeList`. -/
def textDecodeList : List Nat → Option (List Char)
  | [] => some []
  | b0 :: b1 :: b2 :: rest =>
    if (b0 * 65536 + b1 * 256 + b2).isValidChar then
      match textDecodeList rest with
      | some cs => some (Char.ofNat (b0 * 65536 + b1 * 256 + b2) :: cs)
      | none => none
    else none
  | _ => none

/-- Modelled from the spec: the bytes-to-text step of decryption. -/
def textDecode (bs : List Nat) : Option String :=
  (textDecodeList bs).map String.mk

theorem char_toNat_lt (c : Char) : c.toNat < 1114112 := by
  have h : c.toNat.isValidChar := c.valid
  rcases h with h | ⟨h1, h2⟩ <;> omega

theorem textEncodeChar_allBytes (c : Char) : allBytes (textEncodeChar c) := by
  have h : c.toNat < 1114112 := char_toNat_lt c
  intro b hb
  simp [textEncodeChar] at hb
  rcases hb with h1 | h1 | h1 <;> omega

theorem textEncodeList_allBytes (cs : List Char) : allBytes (textEncodeList cs) := by
  induction cs with
  | nil => intro b hb; simp [textEncodeList] at hb
  | cons c cs ih =>
    intro b hb
    simp only [textEncodeList, List.mem_append] at hb
    rcases hb with hb | hb
    · exact textEncodeChar_allBytes c b hb
    · exact ih b hb

theorem textEncode_allBytes (s : String) : allBytes (textEncode s) :=
  textEncodeList_allBytes s.data

theorem textDecodeList_encode (cs : List Char) :
    textDecodeList (textEncodeList cs) = some cs := by
  induction cs with
  | nil => rfl
  | cons c cs ih =>
    have hval : c.toNat.isValidChar := c.valid
    have hlt : c.toNat < 1114112 := char_toNat_lt c
    have hn : c.toNat / 65536 * 65536 + c.toNat / 256 % 256 * 256 + c.toNat % 256
        = c.toNat := by omega
    simp only [textEncodeList, textEncodeChar, List.cons_append, List.nil_append,
      textDecodeList, hn, hval, if_true]
    simp [ih, Char.ofNat_toNat]

theorem textDecode_encode (s : String) : textDecode (textEncode s) = some s := by
  simp [textDecode, textEncode, textDecodeList_encode]

theorem textEncode_inj {s t : String} (h : textEncode s = textEncode t) : s = t := by
  have h1 := textDecode_encode s
  rw [h, textDecode_encode] at h1
  exact (Option.some_inj.mp h1).symm

/-! ### Framed byte-list encoding (used by the symbolic AEAD and the
JSON-serialization model): each byte is prefixed by a `1` marker, the list is
terminated by a `0` marker, so a frame is self-delimiting inside a longer
stream. -/

/-- Self-delimiting frame around a byte list. -/
def encodeList : List Nat → List Nat
  | [] => [0]
  | b :: bs => 1 :: b :: encodeList bs

/-- Read one frame, returning its contents and the rest of the stream. -/
def decodeList : List Nat → Option (List Nat × List Nat)
  | 0 :: rest => some ([], rest)
  | 1 :: b :: rest =>
    match decodeList rest with
    | some (l, r) => some (b :: l, r)
    | none => none
  | _ => none

theorem decodeList_encodeList (bs rest : List Nat) :
    decodeList (encodeList bs ++ rest) = some (bs, rest) := by
  induction bs with
  | nil => rfl
  | cons b bs ih => simp [encodeList, decodeList, ih]

theorem encodeList_allBytes {bs : List Nat} (h : allBytes bs) :
    allBytes (encodeList bs) := by
  induction bs with
  | nil => intro x hx; simp [encodeList] at hx; omega
  | cons b bs ih =>
    intro x hx
    simp only [encodeList, List.mem_cons] at hx
    rcases hx with hx | hx | hx
    · omega
    · exact hx ▸ h b (by simp)
    · exact ih (fun y hy => h y (by simp [hy])) x hx

/-! ### Base-256 encoding of natural numbers (for timestamps and counters in
the serialization model). -/

/-- Little-endian base-256 digits of `n` (empty for `0`). -/
def natBytes (n : Nat) : List Nat :=
  if h : n = 0 then [] else n % 256 :: natBytes (n / 256)
decreasing_by exact Nat.div_lt_self (Nat.pos_of_ne_zero h) (by decide)

/-- Inverse fold of `natBytes`. -/
def decodeNat (l : List Nat) : Nat := l.foldr (fun b acc => b + 256 * acc) 0

theorem decodeNat_natBytes (n : Nat) : decodeNat (natBytes n) = n := by
  induction n using Nat.strong_induction_on with
  | _ n ih =>
    rw [natBytes]
    split
    · simp [decodeNat]; omega
    · rename_i h
      have hlt : n / 256 < n := Nat.div_lt_self (Nat.pos_of_ne_zero h) (by decide)
      have := ih (n / 256) hlt
      simp only [decodeNat, List.foldr] at this ⊢
      omega

theorem natBytes_allBytes (n : Nat) : allBytes (natBytes n) := by
  induction n using Nat.strong_induction_on with
  | _ n ih =>
    rw [natBytes]
    split
    · intro b hb; simp at hb
    · rename_i h
      have hlt : n / 256 < n := Nat.div_lt_self (Nat.pos_of_ne_zero h) (by decide)
      intro b hb
      simp only [List.mem_cons] at hb
      rcases hb with hb | hb
      · omega
      · exact ih (n / 256) hlt b hb

theorem natBytes_inj {m n : Nat} (h : natBytes m = natBytes n) : m = n := by
  have h1 := decodeNat_natBytes m
  rw [h, decodeNat_natBytes] at h1
  exact h1.symm

/-! ### Base64 (`btoa` / `atob`)

Faithful embedding of `arrayBufferToBase64` / `base64ToUint8Array`
(`src/lib/crypto.ts` lines 7-23): the byte list is the JS "binary string",
`btoa` packs 3 bytes into 4 alphabet characters with `=` padding, `atob`
inverts it and fails (throws, here `none`) on input it cannot parse. -/

/-- Standard base64 alphabet. -/
def b64Char (n : Nat) : Char :=
  "ABCDEFGHIJKLMNOPQRSTUVWXYZabcdefghijklmnopqrstuvwxyz0123456789+/".data.getD n 'A'

/-- Index of a character in the base64 alphabet. -/
def b64Val (c : Char) : Option Nat :=
  (List.range 64).find? (fun n => b64Char n = c)

theorem b64Val_b64Char : ∀ n, n < 64 → b64Val (b64Char n) = some n := by decide

/-- Encode bytes in groups of three, padding the final group. -/
def btoaChunks : List Nat → List Char
  | [] => []
  | [a] => [b64Char (a / 4), b64Char (a % 4 * 16), '=', '=']
  | [a, b] => [b64Char (a / 4), b64Char (a % 4 * 16 + b / 16), b64Char (b % 16 * 4), '=']
  | a :: b :: c :: rest =>
    b64Char (a / 4) :: b64Char (a % 4 * 16 + b / 16) ::
    b64Char (b % 16 * 4 + c / 64) :: b64Char (c % 64) :: btoaChunks rest

/-- Embedding of `arrayBufferToBase64`. -/
def btoaModel (bs : List Nat) : String := String.mk (btoaChunks bs)

/-- Decode the final (possibly padded) group of four characters. -/
def atobLast (c1 c2 c3 c4 : Char) : Option (List Nat) :=
  match b64Val c1, b64Val c2 with
  | some v1, some v2 =>
    if c3 = '=' then
      if c4 = '=' then some [v1 * 4 + v2 / 16] else none
    else
      match b64Val c3 with
      | some v3 =>
        if c4 = '=' then some [v1 * 4 + v2 / 16, v2 % 16 * 16 + v3 / 4]
        else
          match b64Val c4 with
          | some v4 => some [v1 * 4 + v2 / 16, v2 % 16 * 16 + v3 / 4, v3 % 4 * 64 + v4]
          | none => none
      | none => none
  | _, _ => none

/-- Decode groups of four characters. -/
def atobChunks : List Char → Option (List Nat)
  | [] => some []
  | c1 :: c2 :: c3 :: c4 :: rest =>
    if rest = [] then atobLast c1 c2 c3 c4
    else
      match b64Val c1, b64Val c2, b64Val c3, b64Val c4, atobChunks rest with
      | some v1, some v2, some v3, some v4, some tl =>
        some ((v1 * 4 + v2 / 16) :: (v2 % 16 * 16 + v3 / 4) :: (v3 % 4 * 64 + v4) :: tl)
      | _, _, _, _, _ => none
  | _ => none

/-- Embedding of `base64ToUint8Array` (on top of `atob`). -/
def atobModel (s : String) : Option (List Nat) := atobChunks s.data

theorem b64Char_ne_pad : ∀ n, n < 64 → b64Char n ≠ '=' := by decide

theorem btoaChunks_ne_nil : ∀ bs : List Nat, bs ≠ [] → btoaChunks bs ≠ []
  | [], h => absurd rfl h
  | [_], _ => by simp [btoaChunks]
  | [_, _], _ => by simp [btoaChunks]
  | _ :: _ :: _ :: _, _ => by simp [btoaChunks]

theorem atobChunks_btoaChunks :
    ∀ bs : List Nat, allBytes bs → atobChunks (btoaChunks bs) = some bs
  | [], _ => rfl
  | [a], h => by
    have ha : a < 256 := h a (by simp)
    have h1 := b64Val_b64Char (a / 4) (by omega)
    have h2 := b64Val_b64Char (a % 4 * 16) (by omega)
    have e1 : a / 4 * 4 + a % 4 * 16 / 16 = a := by omega
    simp [btoaChunks, atobChunks, atobLast, h1, h2, e1]
    omega
  | [a, b], h => by
    have ha : a < 256 := h a (by simp)
    have hb : b < 256 := h b (by simp)
    have h1 := b64Val_b64Char (a / 4) (by omega)
    have h2 := b64Val_b64Char (a % 4 * 16 + b / 16) (by omega)
    have h3 := b64Val_b64Char (b % 16 * 4) (by omega)
    have hne := b64Char_ne_pad (b % 16 * 4) (by omega)
    have e1 : a / 4 * 4 + (a % 4 * 16 + b / 16) / 16 = a := by omega
    have e2 : (a % 4 * 16 + b / 16) % 16 * 16 + b % 16 * 4 / 4 = b := by omega
    simp [btoaChunks, atobChunks, atobLast, h1, h2, h3, hne, e1, e2]
    omega
  | a :: b :: c :: rest, h => by
    have ha : a < 256 := h a (by simp)
    have hb : b < 256 := h b (by simp)
    have hc : c < 256 := h c (by simp)
    have h1 := b64Val_b64Char (a / 4) (by omega)
    have h2 := b64Val_b64Char (a % 4 * 16 + b / 16) (by omega)
    have h3 := b64Val_b64Char (b % 16 * 4 + c / 64) (by omega)
    have h4 := b64Val_b64Char (c % 64) (by omega)
    have hne3 := b64Char_ne_pad (b % 16 * 4 + c / 64) (by omega)
    have hne4 := b64Char_ne_pad (c % 64) (by omega)
    have e1 : a / 4 * 4 + (a % 4 * 16 + b / 16) / 16 = a := by omega
    have e2 : (a % 4 * 16 + b / 16) % 16 * 16 + (b % 16 * 4 + c / 64) / 4 = b := by omega
    have e3 : (b % 16 * 4 + c / 64) % 4 * 64 + c % 64 = c := by omega
    rcases rest with _ | ⟨d, rest2⟩
    · simp [btoaChunks, atobChunks, atobLast, h1, h2, h3, h4, hne3, hne4, e1, e2, e3]
    · have hrest : allBytes (d :: rest2) := fun y hy => h y (by simp at hy ⊢; tauto)
      have ih := atobChunks_btoaChunks (d :: rest2) hrest
      have hne0 : btoaChunks (d :: rest2) ≠ [] := btoaChunks_ne_nil _ (by simp)
      simp [btoaChunks, atobChunks, h1, h2, h3, h4, hne0, ih, e1, e2, e3]

theorem atobModel_btoaModel (bs : List Nat) (h : allBytes bs) :
    atobModel (btoaModel bs) = some bs := by
  simpa [atobModel, btoaModel] using atobChunks_btoaChunks bs h

/-! ### Symbolic authenticated encryption

Modelled from the spec: Web Crypto `AES-GCM` with a PBKDF2-derived key
(§4.1, §6).  The model is the standard symbolic (Dolev-Yao) idealization of
an AEAD: a ciphertext determines the derivation inputs `(passphrase, salt)`,
the nonce and the plaintext, and decryption succeeds exactly when the
authentication check — re-derived key and nonce both match — passes, which is
the spec's reading of "fails with `DecryptionFailure` whenever the
authentication tag does not verify". -/

/-- Modelled from the spec: PBKDF2 (`deriveKey`, `src/lib/crypto.ts` lines
25-46) — deterministic for a `(passphrase, salt)` pair, distinct pairs giving
operationally independent keys; idealized as the pair itself. -/
def deriveKeyModel (pin : String) (salt : List Nat) : String × List Nat :=
  (pin, salt)

/-- Modelled from the spec: `crypto.subtle.encrypt` for AES-GCM; the
ciphertext-with-tag is an injective framed encoding of key, nonce, plaintext. -/
def gcmEncrypt (key : String × List Nat) (iv : List Nat) (pt : List Nat) : List Nat :=
  encodeList (textEncode key.1) ++ encodeList key.2 ++ encodeList iv ++ encodeList pt

/-- Modelled from the spec: `crypto.subtle.decrypt` for AES-GCM; `none`
stands for the rejected promise on tag-verification failure. -/
def gcmDecrypt (key : String × List Nat) (iv : List Nat) (data : List Nat) :
    Option (List Nat) :=
  match decodeList data with
  | some (p, r1) =>
    match decodeList r1 with
    | some (s, r2) =>
      match decodeList r2 with
      | some (i, r3) =>
        match decodeList r3 with
        | some (pt, rest) =>
          if p = textEncode key.1 ∧ s = key.2 ∧ i = iv ∧ rest = [] then some pt
          else none
        | none => none
      | none => none
    | none => none
  | none => none

theorem decodeList_encodeList_nil (bs : List Nat) :
    decodeList (encodeList bs) = some (bs, []) := by
  simpa using decodeList_encodeList bs []

theorem gcmDecrypt_gcmEncrypt (key : String × List Nat) (iv pt : List Nat) :
    gcmDecrypt key iv (gcmEncrypt key iv pt) = some pt := by
  simp [gcmEncrypt, gcmDecrypt, List.append_assoc, decodeList_encodeList,
    decodeList_encodeList_nil]

theorem gcmDecrypt_wrong_pin (p q : String) (s iv pt : List Nat) (hpq : q ≠ p) :
    gcmDecrypt (q, s) iv (gcmEncrypt (p, s) iv pt) = none := by
  have hne : ¬(textEncode p = textEncode q) := fun hc => hpq (textEncode_inj hc).symm
  simp [gcmEncrypt, gcmDecrypt, List.append_assoc, decodeList_encodeList,
    decodeList_encodeList_nil, hne]

theorem gcmEncrypt_allBytes (key : String × List Nat) (iv pt : List Nat)
    (hs : allBytes key.2) (hi : allBytes iv) (hp : allBytes pt) :
    allBytes (gcmEncrypt key iv pt) := by
  intro b hb
  simp only [gcmEncrypt, List.mem_append] at hb
  rcases hb with ((hb | hb) | hb) | hb
  · exact encodeList_allBytes (textEncode_allBytes key.1) b hb
  · exact encodeList_allBytes hs b hb
  · exact encodeList_allBytes hi b hb
  · exact encodeList_allBytes hp b hb

/-! ### The crypto.ts envelope -/

/-- Fixed marker string (`VERIFY_PHRASE`, `src/lib/crypto.ts` line 5). -/
def VERIFY_PHRASE : String := "PROMPTVAULT_V1_OK"

/-- Embedding of `encrypt` (`src/lib/crypto.ts` lines 48-67): pack
`salt(16) ‖ iv(12) ‖ ciphertext` and base64-encode.  The fresh random bytes
drawn from `crypto.getRandomValues` are explicit arguments. -/
def encrypt (plaintext pin : String) (salt iv : List Nat) : String :=
  btoaModel (salt ++ iv ++ gcmEncrypt (deriveKeyModel pin salt) iv (textEncode plaintext))

/-- Embedding of `decrypt` (`src/lib/crypto.ts` lines 69-84): unpack the
base64 envelope at offsets 0-16 (salt), 16-28 (iv), 28.. (ciphertext),
re-derive the key, decrypt.  `none` stands for any thrown error. -/
def decrypt (encryptedBase64 pin : String) : Option String :=
  match atobModel encryptedBase64 with
  | none => none
  | some combined =>
    match gcmDecrypt (deriveKeyModel pin (combined.take 16))
        ((combined.drop 16).take 12) (combined.drop 28) with
    | none => none
    | some ptBytes => textDecode ptBytes

/-- Embedding of `createPinVerifier` (`src/lib/crypto.ts` lines 87-89). -/
def createPinVerifier (pin : String) (salt iv : List Nat) : String :=
  encrypt VERIFY_PHRASE pin salt iv

/-- Embedding of `verifyPin` (`src/lib/crypto.ts` lines 91-98): the
`try`/`catch` maps a failed decryption to `false`; on success the recovered
plaintext is compared with the marker. -/
def verifyPin (pin verifier : String) : Bool :=
  match decrypt verifier pin with
  | some result => result == VERIFY_PHRASE
  | none => false

theorem take_app_len {α : Type} (a b : List α) (n : Nat) (h : a.length = n) :
    (a ++ b).take n = a := by
  subst h; exact List.take_left a b

theorem drop_app_len {α : Type} (a b : List α) (n : Nat) (h : a.length = n) :
    (a ++ b).drop n = b := by
  subst h; exact List.drop_left a b

/-- Unpacking the envelope recovers the three packed components. -/
theorem envelope_slices (salt iv ct : List Nat)
    (hs : salt.length = 16) (hi : iv.length = 12) :
    (salt ++ iv ++ ct).take 16 = salt ∧
    ((salt ++ iv ++ ct).drop 16).take 12 = iv ∧
    (salt ++ iv ++ ct).drop 28 = ct := by
  have hassoc : salt ++ iv ++ ct = salt ++ (iv ++ ct) := List.append_assoc salt iv ct
  have h16 : (salt ++ (iv ++ ct)).drop 16 = iv ++ ct := drop_app_len _ _ _ hs
  refine ⟨?_, ?_, ?_⟩
  · rw [hassoc]; exact take_app_len _ _ _ hs
  · rw [hassoc, h16]; exact take_app_len _ _ _ hi
  · rw [hassoc, show (28 : Nat) = 16 + 12 from rfl, ← List.drop_drop, h16]
    exact drop_app_len _ _ _ hi

theorem encrypt_allBytes (t p : String) (salt iv : List Nat)
    (hsb : allBytes salt) (hib : allBytes iv) :
    allBytes (salt ++ iv ++ gcmEncrypt (deriveKeyModel p salt) iv (textEncode t)) := by
  intro b hb
  simp only [List.mem_append] at hb
  rcases hb with (hb | hb) | hb
  · exact hsb b hb
  · exact hib b hb
  · exact gcmEncrypt_allBytes _ _ _ hsb hib (textEncode_allBytes t) b hb

/-- Decrypting with an arbitrary passphrase `q` reduces to the symbolic AEAD
on the packed components. -/
theorem decrypt_encrypt_reduce (t p q : String) (salt iv : List Nat)
    (hs : salt.length = 16) (hi : iv.length = 12)
    (hsb : allBytes salt) (hib : allBytes iv) :
    decrypt (encrypt t p salt iv) q =
      match gcmDecrypt (deriveKeyModel q salt) iv
          (gcmEncrypt (deriveKeyModel p salt) iv (textEncode t)) with
      | none => none
      | some ptBytes => textDecode ptBytes := by
  obtain ⟨h1, h2, h3⟩ :=
    envelope_slices salt iv (gcmEncrypt (deriveKeyModel p salt) iv (textEncode t)) hs hi
  unfold decrypt encrypt
  rw [atobModel_btoaModel _ (encrypt_allBytes t p salt iv hsb hib)]
  dsimp only
  rw [h1, h2, h3]

/-- Round trip: decrypting with the matching passphrase recovers the
plaintext. -/
theorem decrypt_encrypt (t p : String) (salt iv : List Nat)
    (hs : salt.length = 16) (hi : iv.length = 12)
    (hsb : allBytes salt) (hib : allBytes iv) :
    decrypt (encrypt t p salt iv) p = some t := by
  rw [decrypt_encrypt_reduce t p p salt iv hs hi hsb hib, gcmDecrypt_gcmEncrypt]
  exact textDecode_encode t

/-- Key separation: decrypting with a different passphrase fails. -/
theorem decrypt_encrypt_wrong (t p q : String) (salt iv : List Nat)
    (hs : salt.length = 16) (hi : iv.length = 12)
    (hsb : allBytes salt) (hib : allBytes iv) (hpq : q ≠ p) :
    decrypt (encrypt t p salt iv) q = none := by
  rw [decrypt_encrypt_reduce t p q salt iv hs hi hsb hib]
  simp only [deriveKeyModel]
  rw [gcmDecrypt_wrong_pin p q salt iv _ hpq]

theorem verifyPin_correct (p : String) (salt iv : List Nat)
    (hs : salt.length = 16) (hi : iv.length = 12)
    (hsb : allBytes salt) (hib : allBytes iv) :
    verifyPin p (createPinVerifier p salt iv) = true := by
  unfold verifyPin createPinVerifier
  rw [decrypt_encrypt VERIFY_PHRASE p salt iv hs hi hsb hib]
  simp

theorem verifyPin_wrong (p q : String) (salt iv : List Nat)
    (hs : salt.length = 16) (hi : iv.length = 12)
    (hsb : allBytes salt) (hib : allBytes iv) (hpq : q ≠ p) :
    verifyPin q (createPinVerifier p salt iv) = false := by
  unfold verifyPin createPinVerifier
  rw [decrypt_encrypt_wrong VERIFY_PHRASE p q salt iv hs hi hsb hib hpq]

theorem verifyPin_iff (q v : String) :
    verifyPin q v = true ↔ decrypt v q = some VERIFY_PHRASE := by
  unfold verifyPin
  cases h : decrypt v q with
  | none => simp
  | some r => simp [beq_iff_eq]

/-- C1: for every plaintext string `t` and every passphrase `p` (with the
fresh random 16-byte salt and 12-byte nonce of the `encrypt` call made
explicit), decrypting the envelope produced by `encrypt t p` with the same
passphrase `p` returns exactly `t` — the envelope being the base64 packing
of salt, nonce and ciphertext, which `decrypt` unpacks at offsets 0-16,
16-28 and 28 onward. -/
theorem C1_encrypt_decrypt_round_trip (t p : String) (salt iv : List Nat)
    (hs : salt.length = 16) (hi : iv.length = 12)
    (hsb : allBytes salt) (hib : allBytes iv) :
    decrypt (encrypt t p salt iv) p = some t :=
  decrypt_encrypt t p salt iv hs hi hsb hib

theorem C1_witness :
    decrypt (encrypt "привет vault" "1234" (List.replicate 16 7) (List.replicate 12 3))
      "1234" = some "привет vault" :=
  C1_encrypt_decrypt_round_trip "привет vault" "1234" _ _
    (by decide) (by decide) (by decide) (by decide)

/-- C2: `verifyPin p (createPinVerifier p) = true`; for a distinct pin `q`,
`verifyPin q (createPinVerifier p) = false`; and `verifyPin` returns `true`
exactly when decryption succeeds with plaintext equal to the fixed marker
(`false`, never a thrown error, on any decryption failure). -/
theorem C2_verifier_correct (p q : String) (salt iv : List Nat)
    (hs : salt.length = 16) (hi : iv.length = 12)
    (hsb : allBytes salt) (hib : allBytes iv) (hpq : q ≠ p) :
    verifyPin p (createPinVerifier p salt iv) = true ∧
    verifyPin q (createPinVerifier p salt iv) = false ∧
    (∀ v : String, verifyPin q v = true ↔ decrypt v q = some VERIFY_PHRASE) ∧
    (∀ v : String, decrypt v q = none → verifyPin q v = false) :=
  ⟨verifyPin_correct p salt iv hs hi hsb hib,
   verifyPin_wrong p q salt iv hs hi hsb hib hpq,
   fun v => verifyPin_iff q v,
   fun v hv => by unfold verifyPin; rw [hv]⟩

theorem C2_witness :
    verifyPin "1234" (createPinVerifier "1234" (List.replicate 16 7) (List.replicate 12 3))
      = true ∧
    verifyPin "0000" (createPinVerifier "1234" (List.replicate 16 7) (List.replicate 12 3))
      = false ∧
    (∀ v : String, verifyPin "0000" v = true ↔ decrypt v "0000" = some VERIFY_PHRASE) ∧
    (∀ v : String, decrypt v "0000" = none → verifyPin "0000" v = false) :=
  C2_verifier_correct "1234" "0000" _ _
    (by decide) (by decide) (by decide) (by decide) (by decide)

/-! ### Data model (`src/types.ts`) -/

/-- Embedding of `Prompt` (`src/types.ts` lines 1-11). -/
structure Prompt where
  id : String
  title : String
  content : String
  category : String
  tags : List String
  isFavorite : Bool
  createdAt : Nat
  updatedAt : Nat
  usageCount : Nat
deriving DecidableEq

/-- Embedding of `VaultData` (`src/types.ts` lines 13-17). -/
structure VaultData where
  prompts : List Prompt
  version : Nat
  lastSync : Nat
deriving DecidableEq

/-- Embedding of `SyncStatus` (`src/types.ts` line 19). -/
inductive SyncStatus where
  | idle
  | syncing
  | synced
  | error
  | offline
deriving DecidableEq

/-! ### Serialization model

Modelled from the spec: `JSON.stringify` / `JSON.parse` on `VaultData`
(the remote blob document of §6 and the cached document of §4.3) — an
injective, executable string serialization with a partial inverse.  Field
order follows the JSON document shape `{prompts, version, lastSync}`. -/

/-- Frame one string field. -/
def encStr (s : String) : List Nat := encodeList (textEncode s)

/-- Frame one numeric field. -/
def encNat (n : Nat) : List Nat := encodeList (natBytes n)

/-- Single byte for a boolean field. -/
def encBool (b : Bool) : List Nat := [if b then 1 else 0]

/-- Concatenated string frames. -/
def encStrs : List String → List Nat
  | [] => []
  | t :: ts => encStr t ++ encStrs ts

/-- Counted list of string frames (for `tags`). -/
def encStrList (ts : List String) : List Nat := encNat ts.length ++ encStrs ts

/-- Serialized `Prompt`, all nine fields in declaration order. -/
def encPrompt (p : Prompt) : List Nat :=
  encStr p.id ++ encStr p.title ++ encStr p.content ++ encStr p.category ++
  encStrList p.tags ++ encBool p.isFavorite ++
  encNat p.createdAt ++ encNat p.updatedAt ++ encNat p.usageCount

/-- Concatenated prompt records. -/
def encPrompts : List Prompt → List Nat
  | [] => []
  | p :: ps => encPrompt p ++ encPrompts ps

/-- Bytes rendered as a string (one character per byte). -/
def bytesToString (bs : List Nat) : String := String.mk (bs.map Char.ofNat)

/-- Modelled from the spec: `JSON.stringify` applied to a `VaultData`. -/
def stringifyModel (d : VaultData) : String :=
  bytesToString (encNat d.prompts.length ++ encPrompts d.prompts ++
    encNat d.version ++ encNat d.lastSync)

/-- Read one string field. -/
def decStr (bs : List Nat) : Option (String × List Nat) :=
  match decodeList bs with
  | some (b, rest) =>
    match textDecode b with
    | some s => some (s, rest)
    | none => none
  | none => none

/-- Read one numeric field. -/
def decNat (bs : List Nat) : Option (Nat × List Nat) :=
  match decodeList bs with
  | some (b, rest) => some (decodeNat b, rest)
  | none => none

/-- Read one boolean field. -/
def decBool : List Nat → Option (Bool × List Nat)
  | 0 :: rest => some (false, rest)
  | 1 :: rest => some (true, rest)
  | _ => none

/-- Read `n` string frames. -/
def decStrs : Nat → List Nat → Option (List String × List Nat)
  | 0, bs => some ([], bs)
  | n + 1, bs =>
    match decStr bs with
    | some (s, rest) =>
      match decStrs n rest with
      | some (ss, r2) => some (s :: ss, r2)
      | none => none
    | none => none

/-- Read a counted string list. -/
def decStrList (bs : List Nat) : Option (List String × List Nat) :=
  match decNat bs with
  | some (n, rest) => decStrs n rest
  | none => none

/-- Read one serialized `Prompt`. -/
def decPrompt (bs : List Nat) : Option (Prompt × List Nat) := do
  let (i, r1) ← decStr bs
  let (ti, r2) ← decStr r1
  let (co, r3) ← decStr r2
  let (ca, r4) ← decStr r3
  let (tg, r5) ← decStrList r4
  let (fav, r6) ← decBool r5
  let (cr, r7) ← decNat r6
  let (up, r8) ← decNat r7
  let (us, r9) ← decNat r8
  pure (⟨i, ti, co, ca, tg, fav, cr, up, us⟩, r9)

/-- Read `n` serialized prompts. -/
def decPrompts : Nat → List Nat → Option (List Prompt × List Nat)
  | 0, bs => some ([], bs)
  | n + 1, bs =>
    match decPrompt bs with
    | some (p, rest) =>
      match decPrompts n rest with
      | some (ps, r2) => some (p :: ps, r2)
      | none => none
    | none => none

/-- Modelled from the spec: `JSON.parse` of a cached or fetched document,
returning `none` (a thrown `SyntaxError` / shape mismatch) unless the string
is a serialized `VaultData`. -/
def parseModel (s : String) : Option VaultData :=
  let bs := s.data.map Char.toNat
  match decNat bs with
  | some (n, r1) =>
    match decPrompts n r1 with
    | some (ps, r2) =>
      match decNat r2 with
      | some (v, r3) =>
        match decNat r3 with
        | some (ls, r4) => if r4 = [] then some ⟨ps, v, ls⟩ else none
        | none => none
      | none => none
    | none => none
  | none => none

theorem allBytes_append {a b : List Nat} (ha : allBytes a) (hb : allBytes b) :
    allBytes (a ++ b) := by
  intro x hx
  rcases List.mem_append.mp hx with h | h
  · exact ha x h
  · exact hb x h

theorem encStr_allBytes (s : String) : allBytes (encStr s) :=
  encodeList_allBytes (textEncode_allBytes s)

theorem encNat_allBytes (n : Nat) : allBytes (encNat n) :=
  encodeList_allBytes (natBytes_allBytes n)

theorem encBool_allBytes (b : Bool) : allBytes (encBool b) := by
  cases b <;> (intro x hx; simp [encBool] at hx; omega)

theorem encStrs_allBytes (ts : List String) : allBytes (encStrs ts) := by
  induction ts with
  | nil => intro x hx; simp [encStrs] at hx
  | cons t ts ih => exact allBytes_append (encStr_allBytes t) ih

theorem encStrList_allBytes (ts : List String) : allBytes (encStrList ts) :=
  allBytes_append (encNat_allBytes _) (encStrs_allBytes ts)

theorem encPrompt_allBytes (p : Prompt) : allBytes (encPrompt p) := by
  unfold encPrompt
  exact allBytes_append (allBytes_append (allBytes_append (allBytes_append
    (allBytes_append (allBytes_append (allBytes_append (allBytes_append
      (encStr_allBytes _) (encStr_allBytes _)) (encStr_allBytes _))
      (encStr_allBytes _)) (encStrList_allBytes _)) (encBool_allBytes _))
      (encNat_allBytes _)) (encNat_allBytes _)) (encNat_allBytes _)

theorem encPrompts_allBytes (ps : List Prompt) : allBytes (encPrompts ps) := by
  induction ps with
  | nil => intro x hx; simp [encPrompts] at hx
  | cons p ps ih => exact allBytes_append (encPrompt_allBytes p) ih

theorem char_byte_round_trip (b : Nat) (h : b < 256) : (Char.ofNat b).toNat = b := by
  have hv : b.isValidChar := Or.inl (by omega)
  simp [Char.ofNat, hv, Char.ofNatAux, Char.toNat]
  rfl

theorem bytesToString_round_trip (bs : List Nat) (h : allBytes bs) :
    (bytesToString bs).data.map Char.toNat = bs := by
  induction bs with
  | nil => rfl
  | cons b rest ih =>
    have hb : b < 256 := h b (by simp)
    have hrest : allBytes rest := fun y hy => h y (by simp [hy])
    simp only [bytesToString, List.map_cons] at *
    simp [char_byte_round_trip b hb, ih hrest]

theorem decStr_encStr (s : String) (rest : List Nat) :
    decStr (encStr s ++ rest) = some (s, rest) := by
  simp [decStr, encStr, decodeList_encodeList, textDecode_encode]

theorem decNat_encNat (n : Nat) (rest : List Nat) :
    decNat (encNat n ++ rest) = some (n, rest) := by
  simp [decNat, encNat, decodeList_encodeList, decodeNat_natBytes]

theorem decNat_encNat_nil (n : Nat) : decNat (encNat n) = some (n, []) := by
  simpa using decNat_encNat n []

theorem decBool_encBool (b : Bool) (rest : List Nat) :
    decBool (encBool b ++ rest) = some (b, rest) := by
  cases b <;> simp [encBool, decBool]

theorem decStrs_encStrs (ts : List String) (rest : List Nat) :
    decStrs ts.length (encStrs ts ++ rest) = some (ts, rest) := by
  induction ts with
  | nil => rfl
  | cons t ts ih =>
    simp [encStrs, decStrs, List.append_assoc, decStr_encStr, ih]

theorem decStrList_encStrList (ts : List String) (rest : List Nat) :
    decStrList (encStrList ts ++ rest) = some (ts, rest) := by
  simp [decStrList, encStrList, List.append_assoc, decNat_encNat, decStrs_encStrs]

theorem decPrompt_encPrompt (p : Prompt) (rest : List Nat) :
    decPrompt (encPrompt p ++ rest) = some (p, rest) := by
  simp [decPrompt, encPrompt, List.append_assoc, decStr_encStr,
    decStrList_encStrList, decBool_encBool, decNat_encNat]

theorem decPrompts_encPrompts (ps : List Prompt) (rest : List Nat) :
    decPrompts ps.length (encPrompts ps ++ rest) = some (ps, rest) := by
  induction ps with
  | nil => rfl
  | cons p ps ih =>
    simp [encPrompts, decPrompts, List.append_assoc, decPrompt_encPrompt, ih]

theorem parse_stringify (d : VaultData) : parseModel (stringifyModel d) = some d := by
  have hall : allBytes (encNat d.prompts.length ++ encPrompts d.prompts ++
      encNat d.version ++ encNat d.lastSync) :=
    allBytes_append (allBytes_append (allBytes_append (encNat_allBytes _)
      (encPrompts_allBytes _)) (encNat_allBytes _)) (encNat_allBytes _)
  unfold parseModel stringifyModel
  rw [bytesToString_round_trip _ hall]
  simp [List.append_assoc, decNat_encNat, decPrompts_encPrompts, decNat_encNat_nil]

/-! ### Remote store (`src/lib/gist.ts`)

Each operation is embedded twice: a `...Body` in the `Except Unit` monad
giving the body of its `try` block, where `.error ()` marks a thrown
exception (transport failure of `fetch`, or `res.json()` / `JSON.parse`
throwing), and the exported operation, whose `catch` maps any throw to the
sentinel the source returns. -/

/-- `GIST_FILENAME` (`src/lib/gist.ts` line 5). -/
def GIST_FILENAME : String := "promptvault_data.json"

/-- Shape of the gist API response as used by the code: the id and the files
as `(filename, content)` pairs (`description` and `updated_at` are never
read). -/
structure GistResponse where
  id : String
  files : List (String × String)
deriving DecidableEq

/-- Outcome of one `fetch` call: the transport threw, or a response arrived
with an ok-flag, HTTP status and a JSON body (`none` = `res.json()` threw). -/
inductive FetchRes (α : Type) where
  | threw
  | resp (ok : Bool) (status : Nat) (json : Option α)

/-- Transport oracle: the response each endpoint gives during one call
sequence under a fixed token. -/
structure GistEnv where
  userRes : FetchRes (Option String)
  listRes : Nat → FetchRes (List GistResponse)
  getRes : String → FetchRes GistResponse
  patchRes : String → FetchRes Unit
  postRes : FetchRes GistResponse
  delRes : String → FetchRes Unit

/-- Body of `validateToken` (`src/lib/gist.ts` lines 29-38). -/
def validateTokenBody (env : GistEnv) : Except Unit (Bool × Option String) :=
  match env.userRes with
  | .threw => .error ()
  | .resp ok _ json =>
    if !ok then .ok (false, none)
    else
      match json with
      | none => .error ()
      | some login => .ok (true, login)

/-- Embedding of `validateToken`: the `catch` yields `{valid: false}`. -/
def validateToken (env : GistEnv) : Bool × Option String :=
  match validateTokenBody env with
  | .ok r => r
  | .error _ => (false, none)

/-- Does a gist response carry the vault file? (`GIST_FILENAME in g.files`). -/
def hasVaultFile (g : GistResponse) : Bool :=
  g.files.any (fun f => f.1 == GIST_FILENAME)

/-- Body of the page loop of `findVaultGist` (lines 44-55), `fuel` pages
remaining out of the fixed bound of 3. -/
def findPages (env : GistEnv) : Nat → Nat → Except Unit (Option String)
  | _, 0 => .ok none
  | page, fuel + 1 =>
    match env.listRes page with
    | .threw => .error ()
    | .resp ok _ json =>
      if !ok then .ok none
      else
        match json with
        | none => .error ()
        | some gists =>
          if gists.isEmpty then .ok none
          else
            match gists.find? hasVaultFile with
            | some g => .ok (some g.id)
            | none => findPages env (page + 1) fuel

/-- Body of `findVaultGist` (lines 41-59). -/
def findVaultGistBody (env : GistEnv) : Except Unit (Option String) :=
  findPages env 1 3

/-- Embedding of `findVaultGist`: the `catch` yields `null`. -/
def findVaultGist (env : GistEnv) : Option String :=
  match findVaultGistBody env with
  | .ok r => r
  | .error _ => none

/-- Body of `loadFromGist` (lines 62-75).  `parseModel` returning `none`
models `JSON.parse` throwing; a parse that succeeds with a non-`VaultData`
shape is not distinguished by the source (it casts), so it is folded into
the same failure. -/
def loadFromGistBody (env : GistEnv) (gistId : String) : Except Unit (Option VaultData) :=
  match env.getRes gistId with
  | .threw => .error ()
  | .resp ok _ json =>
    if !ok then .ok none
    else
      match json with
      | none => .error ()
      | some gist =>
        match gist.files.lookup GIST_FILENAME with
        | none => .ok none
        | some content =>
          match parseModel content with
          | some d => .ok (some d)
          | none => .error ()

/-- Embedding of `loadFromGist`: the `catch` yields `null`. -/
def loadFromGist (env : GistEnv) (gistId : String) : Option VaultData :=
  match loadFromGistBody env gistId with
  | .ok r => r
  | .error _ => none

/-- Body of `saveToGist` (lines 78-124): PATCH when a gist id exists, POST
otherwise; the serialized `data` is the request body (its content does not
influence the modelled transport outcome). -/
def saveToGistBody (env : GistEnv) (gistId : Option String) (_data : VaultData) :
    Except Unit (Option String) :=
  match gistId with
  | some gid =>
    match env.patchRes gid with
    | .threw => .error ()
    | .resp ok _ _ => if !ok then .ok none else .ok (some gid)
  | none =>
    match env.postRes with
    | .threw => .error ()
    | .resp ok _ json =>
      if !ok then .ok none
      else
        match json with
        | none => .error ()
        | some gist => .ok (some gist.id)

/-- Embedding of `saveToGist`: the `catch` yields `null`. -/
def saveToGist (env : GistEnv) (gistId : Option String) (data : VaultData) :
    Option String :=
  match saveToGistBody env gistId data with
  | .ok r => r
  | .error _ => none

/-- Body of `deleteGist` (lines 127-137). -/
def deleteGistBody (env : GistEnv) (gistId : String) : Except Unit Bool :=
  match env.delRes gistId with
  | .threw => .error ()
  | .resp ok status _ => .ok (ok || status == 204)

/-- Embedding of `deleteGist`: the `catch` yields `false`. -/
def deleteGist (env : GistEnv) (gistId : String) : Bool :=
  match deleteGistBody env gistId with
  | .ok r => r
  | .error _ => false

/-- C7: each of the five remote-store operations catches every throwing
outcome of its body (transport failure, `res.json()` or `JSON.parse`
throwing) and returns its sentinel — `{valid: false}`, `null`, or `false` —
so no uncaught error ever reaches the caller. -/
theorem C7_remote_ops_degrade_to_sentinels (env : GistEnv) (gid : String)
    (gistId : Option String) (data : VaultData) :
    (validateTokenBody env = .error () → validateToken env = (false, none)) ∧
    (findVaultGistBody env = .error () → findVaultGist env = none) ∧
    (loadFromGistBody env gid = .error () → loadFromGist env gid = none) ∧
    (saveToGistBody env gistId data = .error () → saveToGist env gistId data = none) ∧
    (deleteGistBody env gid = .error () → deleteGist env gid = false) := by
  refine ⟨?_, ?_, ?_, ?_, ?_⟩ <;> intro h <;>
    simp [validateToken, findVaultGist, loadFromGist, saveToGist, deleteGist, h]

/-- Transport in which every request throws. -/
def envAllThrew : GistEnv :=
  ⟨.threw, fun _ => .threw, fun _ => .threw, fun _ => .threw, .threw, fun _ => .threw⟩

theorem C7_witness :
    validateToken envAllThrew = (false, none) ∧
    findVaultGist envAllThrew = none ∧
    loadFromGist envAllThrew "g" = none ∧
    saveToGist envAllThrew (some "g") ⟨[], 1, 0⟩ = none ∧
    saveToGist envAllThrew none ⟨[], 1, 0⟩ = none ∧
    deleteGist envAllThrew "g" = false :=
  ⟨(C7_remote_ops_degrade_to_sentinels envAllThrew "g" (some "g") ⟨[], 1, 0⟩).1 rfl,
   (C7_remote_ops_degrade_to_sentinels envAllThrew "g" (some "g") ⟨[], 1, 0⟩).2.1 rfl,
   (C7_remote_ops_degrade_to_sentinels envAllThrew "g" (some "g") ⟨[], 1, 0⟩).2.2.1 rfl,
   (C7_remote_ops_degrade_to_sentinels envAllThrew "g" (some "g") ⟨[], 1, 0⟩).2.2.2.1 rfl,
   (C7_remote_ops_degrade_to_sentinels envAllThrew "g" none ⟨[], 1, 0⟩).2.2.2.1 rfl,
   (C7_remote_ops_degrade_to_sentinels envAllThrew "g" (some "g") ⟨[], 1, 0⟩).2.2.2.2 rfl⟩

/-! ### Bootstrap (`MainApp` initial-load effect, part_000 lines 616-716)

The effect is single-threaded JS: cancellation (the effect cleanup setting
`cancelled = true` on lock or pin change) can only be observed at `await`
boundaries.  The model threads a counter `t` of completed awaits;
`cancelAt = some k` means the flag was set during the `k`-th await (so every
`!cancelled` check at a boundary `≥ k` sees `true`), `none` means no
teardown.  React state setters are modelled as direct field updates guarded
exactly where the source checks `cancelled`; `localStorage` writes are the
`store` field updates.

The source reads the React state variable `dataLoaded` inside the effect
closure (lines 679, 695, 706); that closure captured the value from the
render that created the effect, so `setDataLoaded(true)` during the same run
does not change what those guards read.  The captured value is the explicit
`captured` argument (it is `false` for the mount-time run). -/

/-- The five persisted `localStorage` entries (part_000 lines 16-20). -/
structure Store where
  pinVerifier : Option String
  encToken : Option String
  encCache : Option String
  gistId : Option String
  username : Option String
deriving DecidableEq

/-- Oracle inputs consumed by one bootstrap run: remote-call outcomes, the
`getDefaultData()` document (fresh random ids and timestamps), and the
random bytes of the (at most one) cache-rewriting `encrypt` call. -/
structure InitEnv where
  fetchStored : Option VaultData
  findRes : Option String
  fetchFound : Option VaultData
  createRes : Option String
  defaults : VaultData
  salt : List Nat
  iv : List Nat
deriving DecidableEq

/-- Remote calls issued during bootstrap. -/
inductive RemoteCall where
  | fetch (gistId : String)
  | find
  | create (data : VaultData)
deriving DecidableEq

/-- Component state touched by the effect, plus the storage and the remote
calls it made. -/
structure InitResult where
  prompts : List Prompt
  dataLoaded : Bool
  syncStatus : SyncStatus
  syncMessage : String
  store : Store
  calls : List RemoteCall
deriving DecidableEq

/-- Has the cancellation flag been set by await boundary `t`? -/
def isCancelled (cancelAt : Option Nat) (t : Nat) : Bool :=
  match cancelAt with
  | none => false
  | some k => decide (k ≤ t)

/-- Lines 701-711: the outer `catch` — reached only when the stored
credential envelope fails to decrypt (every other failure inside the body is
already caught or returned as a sentinel). -/
def initCatch (env : InitEnv) (cancelAt : Option Nat) (captured : Bool) (t : Nat)
    (st : InitResult) : InitResult :=
  if isCancelled cancelAt t then st
  else
    let st1 := { st with syncStatus := SyncStatus.error, syncMessage := "Ошибка загрузки" }
    if captured then st1
    else { st1 with prompts := env.defaults.prompts, dataLoaded := true }

/-- Lines 678-692: the defaults branch.  The guard reads the *captured*
`dataLoaded`; on entry it seeds the defaults, attempts to create a gist, and
unconditionally marks `synced`. -/
def initDefaultsBranch (pin : String) (env : InitEnv) (cancelAt : Option Nat)
    (captured : Bool) (t : Nat) (st : InitResult) : InitResult :=
  if isCancelled cancelAt t || captured then st
  else
    let st1 := { st with prompts := env.defaults.prompts, dataLoaded := true,
                         calls := st.calls ++ [RemoteCall.create env.defaults] }
    let st2 :=
      match env.createRes with
      | some newId =>
        let cacheVal := some (encrypt (stringifyModel env.defaults) pin env.salt env.iv)
        { st1 with store := { st1.store with gistId := some newId, encCache := cacheVal } }
      | none => st1
    { st2 with syncStatus := SyncStatus.synced }

/-- Lines 661-676: discovery branch (entered only when no gist id is
stored), then fall-through to the defaults branch.  Note: after the second
await (the fetch of the found gist) the commit at lines 667-674 does not
re-check `cancelled`. -/
def initFindBranch (pin : String) (env : InitEnv) (cancelAt : Option Nat)
    (captured : Bool) (t : Nat) (st : InitResult) : InitResult :=
  let st1 := { st with calls := st.calls ++ [RemoteCall.find] }
  match env.findRes with
  | some foundId =>
    if isCancelled cancelAt (t + 1) then initDefaultsBranch pin env cancelAt captured (t + 1) st1
    else
      let store2 := { st1.store with gistId := some foundId }
      let calls2 := st1.calls ++ [RemoteCall.fetch foundId]
      let st2 := { st1 with store := store2, calls := calls2 }
      match env.fetchFound with
      | some d =>
        let store3 := { st2.store with
                        encCache := some (encrypt (stringifyModel d) pin env.salt env.iv) }
        { st2 with prompts := d.prompts, store := store3,
                   syncStatus := SyncStatus.synced, dataLoaded := true }
      | none => initDefaultsBranch pin env cancelAt captured (t + 2) st2
  | none => initDefaultsBranch pin env cancelAt captured (t + 1) st1

/-- Lines 643-692: the credential-bearing branch: mark `syncing` (guarded),
fetch the stored gist if a handle is known — on success the remote dataset
unconditionally overwrites memory and cache and the run returns — otherwise
try discovery, otherwise the defaults branch. -/
def initTokenBranch (pin : String) (env : InitEnv) (cancelAt : Option Nat)
    (captured : Bool) (t : Nat) (st : InitResult) : InitResult :=
  let st0 := if isCancelled cancelAt t then st else { st with syncStatus := SyncStatus.syncing }
  match st0.store.gistId with
  | some gid =>
    let st1 := { st0 with calls := st0.calls ++ [RemoteCall.fetch gid] }
    match env.fetchStored with
    | some d =>
      if isCancelled cancelAt (t + 1) then
        initDefaultsBranch pin env cancelAt captured (t + 1) st1
      else
        let store2 := { st1.store with
                        encCache := some (encrypt (stringifyModel d) pin env.salt env.iv) }
        { st1 with prompts := d.prompts, store := store2,
                   syncStatus := SyncStatus.synced, syncMessage := "Синхронизировано",
                   dataLoaded := true }
    | none => initDefaultsBranch pin env cancelAt captured (t + 1) st1
  | none => initFindBranch pin env cancelAt captured t st0

/-- Lines 693-700: no credential — seed defaults (guarded), then mark
`offline` (the status write is outside the guard). -/
def initNoTokenBranch (env : InitEnv) (cancelAt : Option Nat) (captured : Bool)
    (t : Nat) (st : InitResult) : InitResult :=
  let st1 :=
    if isCancelled cancelAt t || captured then st
    else { st with prompts := env.defaults.prompts, dataLoaded := true }
  { st1 with syncStatus := SyncStatus.offline }

/-- Lines 627-700: cache read (inner `try`: decrypt/parse failures are
ignored), then the branch on the presence of a credential. -/
def initRest (pin : String) (env : InitEnv) (cancelAt : Option Nat)
    (captured : Bool) (t : Nat) (st : InitResult) (hasToken : Bool) : InitResult :=
  match st.store.encCache with
  | some c =>
    let st1 :=
      match decrypt c pin with
      | some json =>
        match parseModel json with
        | some cd =>
          if isCancelled cancelAt (t + 1) then st
          else { st with prompts := cd.prompts, dataLoaded := true }
        | none => st
      | none => st
    if hasToken then initTokenBranch pin env cancelAt captured (t + 1) st1
    else initNoTokenBranch env cancelAt captured (t + 1) st1
  | none =>
    if hasToken then initTokenBranch pin env cancelAt captured t st
    else initNoTokenBranch env cancelAt captured t st

/-- Embedding of the bootstrap effect (`init`, part_000 lines 616-716).  A
failing decrypt of the stored credential envelope throws to the outer
`catch`; otherwise the body proceeds through cache read and sync. -/
def init (pin : String) (store : Store) (env : InitEnv) (cancelAt : Option Nat)
    (captured : Bool) : InitResult :=
  let st0 : InitResult := ⟨[], false, SyncStatus.idle, "", store, []⟩
  match store.encToken with
  | some e =>
    match decrypt e pin with
    | none => initCatch env cancelAt captured 1 st0
    | some _ => initRest pin env cancelAt captured 1 st0 true
  | none => initRest pin env cancelAt captured 0 st0 false

theorem initRest_token_no_cancel (pin : String) (env : InitEnv) (captured : Bool)
    (t : Nat) (st : InitResult) :
    ∃ t1 st1, initRest pin env none captured t st true
        = initTokenBranch pin env none captured t1 st1 ∧
      st1.store = st.store ∧ st1.calls = st.calls := by
  unfold initRest
  cases hc : st.store.encCache with
  | none => exact ⟨t, st, rfl, rfl, rfl⟩
  | some c =>
    dsimp only
    cases hd : decrypt c pin with
    | none => exact ⟨t + 1, st, rfl, rfl, rfl⟩
    | some json =>
      dsimp only
      cases hp : parseModel json with
      | none => exact ⟨t + 1, st, rfl, rfl, rfl⟩
      | some cd => exact ⟨t + 1, _, rfl, rfl, rfl⟩

theorem initTokenBranch_fetch_success (pin gid : String) (env : InitEnv)
    (captured : Bool) (t : Nat) (st : InitResult) (remote : VaultData)
    (hgid : st.store.gistId = some gid) (hfetch : env.fetchStored = some remote) :
    (initTokenBranch pin env none captured t st).prompts = remote.prompts ∧
    (initTokenBranch pin env none captured t st).syncStatus = SyncStatus.synced ∧
    (initTokenBranch pin env none captured t st).syncMessage = "Синхронизировано" ∧
    (initTokenBranch pin env none captured t st).dataLoaded = true ∧
    (initTokenBranch pin env none captured t st).store.encCache
      = some (encrypt (stringifyModel remote) pin env.salt env.iv) ∧
    (initTokenBranch pin env none captured t st).store.gistId = st.store.gistId ∧
    (initTokenBranch pin env none captured t st).calls
      = st.calls ++ [RemoteCall.fetch gid] := by
  simp [initTokenBranch, isCancelled, hgid, hfetch]

theorem initTokenBranch_fetch_fail (pin gid : String) (env : InitEnv)
    (captured : Bool) (t : Nat) (st : InitResult)
    (hgid : st.store.gistId = some gid) (hfetch : env.fetchStored = none) :
    initTokenBranch pin env none captured t st =
      initDefaultsBranch pin env none captured (t + 1)
        { st with syncStatus := SyncStatus.syncing,
                  calls := st.calls ++ [RemoteCall.fetch gid] } := by
  simp [initTokenBranch, isCancelled, hgid, hfetch]

theorem initDefaultsBranch_no_cancel (pin : String) (env : InitEnv) (t : Nat)
    (st : InitResult) :
    (initDefaultsBranch pin env none false t st).prompts = env.defaults.prompts ∧
    (initDefaultsBranch pin env none false t st).syncStatus = SyncStatus.synced ∧
    (initDefaultsBranch pin env none false t st).dataLoaded = true ∧
    (initDefaultsBranch pin env none false t st).calls
      = st.calls ++ [RemoteCall.create env.defaults] := by
  unfold initDefaultsBranch
  cases env.createRes <;> simp [isCancelled]

/-- C3: at bootstrap, when a credential decrypts and a gist id is already
known and the remote fetch succeeds, the fetched remote dataset
unconditionally overwrites the in-memory dataset — whatever the local cache
held — and the local cache entry is rewritten to the encryption of the
remote dataset's serialization (which decrypts and parses back to exactly
the remote dataset); status ends `synced`. -/
theorem C3_remote_overwrites_at_bootstrap (pin e tok gid : String) (store : Store)
    (env : InitEnv) (remote : VaultData)
    (htok : store.encToken = some e) (hdec : decrypt e pin = some tok)
    (hgid : store.gistId = some gid) (hfetch : env.fetchStored = some remote)
    (hs : env.salt.length = 16) (hi : env.iv.length = 12)
    (hsb : allBytes env.salt) (hib : allBytes env.iv) :
    (init pin store env none false).prompts = remote.prompts ∧
    (init pin store env none false).syncStatus = SyncStatus.synced ∧
    (init pin store env none false).store.encCache
      = some (encrypt (stringifyModel remote) pin env.salt env.iv) ∧
    decrypt (encrypt (stringifyModel remote) pin env.salt env.iv) pin
      = some (stringifyModel remote) ∧
    parseModel (stringifyModel remote) = some remote := by
  obtain ⟨t1, st1, heq, hstore, hcalls⟩ :=
    initRest_token_no_cancel pin env false 1 ⟨[], false, SyncStatus.idle, "", store, []⟩
  have hinit : init pin store env none false = initTokenBranch pin env none false t1 st1 := by
    simp only [init, htok, hdec]
    exact heq
  have hgid1 : st1.store.gistId = some gid := by rw [hstore]; exact hgid
  obtain ⟨h1, h2, _, _, h5, _, _⟩ :=
    initTokenBranch_fetch_success pin gid env false t1 st1 remote hgid1 hfetch
  rw [hinit]
  exact ⟨h1, h2, h5, decrypt_encrypt _ pin env.salt env.iv hs hi hsb hib,
    parse_stringify remote⟩

/-- Concrete sample data for the bootstrap scenarios. -/
def sampleP (i : String) : Prompt := ⟨i, "t", "c", "cat", [], false, 0, 0, 0⟩

/-- Four-record cached dataset. -/
def sample4 : VaultData := ⟨[sampleP "1", sampleP "2", sampleP "3", sampleP "4"], 1, 0⟩

/-- Five-record remote dataset. -/
def sample5 : VaultData :=
  ⟨[sampleP "a", sampleP "b", sampleP "c", sampleP "d", sampleP "e"], 1, 0⟩

/-- Three-record default dataset (standing for `getDefaultData()`). -/
def sampleDefaults : VaultData := ⟨[sampleP "x", sampleP "y", sampleP "z"], 1, 0⟩

/-- Fixed randomness for sample envelopes. -/
def salt16 : List Nat := List.replicate 16 5

/-- Fixed randomness for sample envelopes. -/
def iv12 : List Nat := List.replicate 12 9

/-- Credential envelope under PIN `"1234"`. -/
def sampleTokenEnvelope : String := encrypt "TOK" "1234" salt16 iv12

/-- Cache envelope holding the 4-record dataset under PIN `"1234"`. -/
def sampleCacheEnvelope : String := encrypt (stringifyModel sample4) "1234" salt16 iv12

/-- Storage with credential, 4-record cache, and a known gist id. -/
def sampleStore : Store :=
  ⟨none, some sampleTokenEnvelope, some sampleCacheEnvelope, some "g1", none⟩

theorem C3_witness :
    (init "1234" sampleStore ⟨some sample5, none, none, none, sampleDefaults, salt16, iv12⟩
        none false).prompts = sample5.prompts ∧
    (init "1234" sampleStore ⟨some sample5, none, none, none, sampleDefaults, salt16, iv12⟩
        none false).syncStatus = SyncStatus.synced ∧
    (init "1234" sampleStore ⟨some sample5, none, none, none, sampleDefaults, salt16, iv12⟩
        none false).store.encCache
      = some (encrypt (stringifyModel sample5) "1234" salt16 iv12) ∧
    decrypt (encrypt (stringifyModel sample5) "1234" salt16 iv12) "1234"
      = some (stringifyModel sample5) ∧
    parseModel (stringifyModel sample5) = some sample5 ∧
    decrypt sampleCacheEnvelope "1234" = some (stringifyModel sample4) ∧
    parseModel (stringifyModel sample4) = some sample4 ∧
    sample4.prompts.length = 4 ∧ sample5.prompts.length = 5 ∧
    sample4.prompts ≠ sample5.prompts :=
  ⟨(C3_remote_overwrites_at_bootstrap "1234" sampleTokenEnvelope "TOK" "g1" sampleStore
      _ sample5 rfl (decrypt_encrypt "TOK" "1234" salt16 iv12 (by decide) (by decide)
        (by decide) (by decide)) rfl rfl (by decide) (by decide) (by decide) (by decide)).1,
   (C3_remote_overwrites_at_bootstrap "1234" sampleTokenEnvelope "TOK" "g1" sampleStore
      _ sample5 rfl (decrypt_encrypt "TOK" "1234" salt16 iv12 (by decide) (by decide)
        (by decide) (by decide)) rfl rfl (by decide) (by decide) (by decide) (by decide)).2.1,
   (C3_remote_overwrites_at_bootstrap "1234" sampleTokenEnvelope "TOK" "g1" sampleStore
      _ sample5 rfl (decrypt_encrypt "TOK" "1234" salt16 iv12 (by decide) (by decide)
        (by decide) (by decide)) rfl rfl (by decide) (by decide) (by decide) (by decide)).2.2.1,
   decrypt_encrypt (stringifyModel sample5) "1234" salt16 iv12 (by decide) (by decide)
     (by decide) (by decide),
   parse_stringify sample5,
   decrypt_encrypt (stringifyModel sample4) "1234" salt16 iv12 (by decide) (by decide)
     (by decide) (by decide),
   parse_stringify sample4,
   by decide, by decide, by decide⟩

/-- C4 (actual code behavior at the claimed scenario): when the cache
decrypts and parses successfully but the remote fetch fails, the effect does
*not* keep the cached dataset: the guard at line 679 reads the closure's
captured `dataLoaded` (still `false`), so the defaults branch runs — the
in-memory dataset is replaced by the built-in defaults, a gist *creation* is
attempted, and status ends `synced`, not `error`. -/
theorem C4_fetch_failure_actual_behavior (pin e tok gid c json : String)
    (store : Store) (env : InitEnv) (cached : VaultData)
    (htok : store.encToken = some e) (hdec : decrypt e pin = some tok)
    (hcache : store.encCache = some c) (hcdec : decrypt c pin = some json)
    (hparse : parseModel json = some cached)
    (hgid : store.gistId = some gid) (hfetch : env.fetchStored = none) :
    (init pin store env none false).prompts = env.defaults.prompts ∧
    (init pin store env none false).syncStatus = SyncStatus.synced ∧
    (init pin store env none false).calls
      = [RemoteCall.fetch gid, RemoteCall.create env.defaults] := by
  have hinit : init pin store env none false
      = initRest pin env none false 1 ⟨[], false, SyncStatus.idle, "", store, []⟩ true := by
    simp only [init, htok, hdec]
  have hrest : initRest pin env none false 1 ⟨[], false, SyncStatus.idle, "", store, []⟩ true
      = initTokenBranch pin env none false 2
          ⟨cached.prompts, true, SyncStatus.idle, "", store, []⟩ := by
    unfold initRest
    simp only [hcache, hcdec, hparse, isCancelled]
    rfl
  have htb := initTokenBranch_fetch_fail pin gid env false 2
    ⟨cached.prompts, true, SyncStatus.idle, "", store, []⟩ hgid hfetch
  obtain ⟨h1, h2, _, h4⟩ := initDefaultsBranch_no_cancel pin env 3
    { (⟨cached.prompts, true, SyncStatus.idle, "", store, []⟩ : InitResult) with
      syncStatus := SyncStatus.syncing, calls := [] ++ [RemoteCall.fetch gid] }
  rw [hinit, hrest, htb]
  exact ⟨h1, h2, by simpa using h4⟩

theorem C4_fetch_failure_witness :
    (init "1234" sampleStore ⟨none, none, none, some "gNew", sampleDefaults, salt16, iv12⟩
        none false).prompts = sampleDefaults.prompts ∧
    (init "1234" sampleStore ⟨none, none, none, some "gNew", sampleDefaults, salt16, iv12⟩
        none false).syncStatus = SyncStatus.synced ∧
    (init "1234" sampleStore ⟨none, none, none, some "gNew", sampleDefaults, salt16, iv12⟩
        none false).calls = [RemoteCall.fetch "g1", RemoteCall.create sampleDefaults] ∧
    decrypt sampleCacheEnvelope "1234" = some (stringifyModel sample4) ∧
    parseModel (stringifyModel sample4) = some sample4 ∧
    sampleDefaults.prompts ≠ sample4.prompts ∧
    SyncStatus.synced ≠ SyncStatus.error :=
  ⟨(C4_fetch_failure_actual_behavior "1234" sampleTokenEnvelope "TOK" "g1"
      sampleCacheEnvelope (stringifyModel sample4) sampleStore _ sample4 rfl
      (decrypt_encrypt "TOK" "1234" salt16 iv12 (by decide) (by decide) (by decide)
        (by decide))
      rfl
      (decrypt_encrypt (stringifyModel sample4) "1234" salt16 iv12 (by decide) (by decide)
        (by decide) (by decide))
      (parse_stringify sample4) rfl rfl).1,
   (C4_fetch_failure_actual_behavior "1234" sampleTokenEnvelope "TOK" "g1"
      sampleCacheEnvelope (stringifyModel sample4) sampleStore _ sample4 rfl
      (decrypt_encrypt "TOK" "1234" salt16 iv12 (by decide) (by decide) (by decide)
        (by decide))
      rfl
      (decrypt_encrypt (stringifyModel sample4) "1234" salt16 iv12 (by decide) (by decide)
        (by decide) (by decide))
      (parse_stringify sample4) rfl rfl).2.1,
   (C4_fetch_failure_actual_behavior "1234" sampleTokenEnvelope "TOK" "g1"
      sampleCacheEnvelope (stringifyModel sample4) sampleStore _ sample4 rfl
      (decrypt_encrypt "TOK" "1234" salt16 iv12 (by decide) (by decide) (by decide)
        (by decide))
      rfl
      (decrypt_encrypt (stringifyModel sample4) "1234" salt16 iv12 (by decide) (by decide)
        (by decide) (by decide))
      (parse_stringify sample4) rfl rfl).2.2,
   decrypt_encrypt (stringifyModel sample4) "1234" salt16 iv12 (by decide) (by decide)
     (by decide) (by decide),
   parse_stringify sample4, by decide, by decide⟩

/-- C8 (amended): when decryption of the stored credential envelope fails,
the thrown error propagates to the bootstrap's outer `catch`: the vault
still unlocks, but with the built-in defaults — the cache is never consulted
(the failure aborts the body before the cache read) — the storage is left
untouched, no remote call is made, and the session status ends `error` (with
the load-error message), not `offline`. -/
theorem C8_token_decrypt_failure_behavior (pin e : String) (store : Store)
    (env : InitEnv) (htok : store.encToken = some e) (hdec : decrypt e pin = none) :
    init pin store env none false
      = ⟨env.defaults.prompts, true, SyncStatus.error, "Ошибка загрузки", store, []⟩ := by
  simp [init, htok, hdec, initCatch, isCancelled]

theorem C8_witness :
    init "1234" ⟨none, some "x", some sampleCacheEnvelope, some "g1", none⟩
        ⟨some sample5, none, none, none, sampleDefaults, salt16, iv12⟩ none false
      = ⟨sampleDefaults.prompts, true, SyncStatus.error, "Ошибка загрузки",
         ⟨none, some "x", some sampleCacheEnvelope, some "g1", none⟩, []⟩ :=
  C8_token_decrypt_failure_behavior "1234" "x"
    ⟨none, some "x", some sampleCacheEnvelope, some "g1", none⟩
    ⟨some sample5, none, none, none, sampleDefaults, salt16, iv12⟩ rfl rfl

theorem C8_counterexample :
    (init "1234" ⟨none, some "y", none, none, none⟩
        ⟨none, none, none, none, ⟨[], 1, 0⟩, [], []⟩ none false).syncStatus
      = SyncStatus.error ∧
    SyncStatus.error ≠ SyncStatus.offline := by
  exact ⟨rfl, by decide⟩

/-! ### Debounced propagation and teardown
(`saveToCloud` lines 719-744, `debouncedSave` lines 746-749, `modifyPrompts`
lines 799-805, lock via unmount).

`saveTimeoutRef` holds at most one pending timeout: `debouncedSave` clears
any pending one and schedules `saveToCloud` with the just-computed prompts
after the fixed delay; `modifyPrompts` applies a mutation and reschedules.
Locking unmounts the component; no cleanup clears the pending timeout and
`saveToCloud` checks no liveness flag, so a pending save still fires.  React
state setters are no-ops once unmounted; `localStorage` writes and the
remote call are not.  Timing is abstracted into the event order: a mutation
issued within the debounce window is one that precedes the timer-fire
event. -/

/-- Fixed debounce delay (line 748). -/
def DEBOUNCE_MS : Nat := 1500

/-- One `saveToGist` call as issued by `saveToCloud`: the `gistId` argument
read from storage at fire time, and the dataset document carried. -/
structure UpsertCall where
  gistId : Option String
  data : VaultData
deriving DecidableEq

/-- Session state of the machine.  `live` is component mountedness; `timer`
the pending debounced payload (the prompts captured at schedule time);
`calls` the issued remote upserts. -/
structure MachineState where
  live : Bool
  prompts : List Prompt
  syncStatus : SyncStatus
  syncMessage : String
  store : Store
  timer : Option (List Prompt)
  calls : List UpsertCall
deriving DecidableEq

/-- Events: a mutation through `modifyPrompts`; the pending timeout elapsing
(with the `saveToGist` outcome, `Date.now()`, and the `encrypt` randomness
it consumes); the session lock. -/
inductive MEvent where
  | mutate (f : List Prompt → List Prompt)
  | timerFire (outcome : Option String) (now : Nat) (salt iv : List Nat)
  | lock

/-- Embedding of `saveToCloud` (lines 719-744): no-op without a credential;
otherwise mark `syncing`, build the document with fresh `lastSync`, call
`saveToGist` with the stored gist id; on success persist the (possibly new)
id and rewrite the cache to mirror the sent document, mark `synced`; on
failure (null result or throw) mark `error` and touch nothing else. -/
def saveToCloud (pin : String) (token : Option String) (payload : List Prompt)
    (outcome : Option String) (now : Nat) (salt iv : List Nat)
    (s : MachineState) : MachineState :=
  match token with
  | none => s
  | some _ =>
    let s1 := if s.live then { s with syncStatus := SyncStatus.syncing } else s
    let data : VaultData := ⟨payload, 1, now⟩
    let s2 := { s1 with calls := s1.calls ++ [(⟨s1.store.gistId, data⟩ : UpsertCall)] }
    match outcome with
    | some resultId =>
      let cacheVal := some (encrypt (stringifyModel data) pin salt iv)
      let store2 := { s2.store with gistId := some resultId, encCache := cacheVal }
      let s3 := { s2 with store := store2 }
      if s3.live then
        { s3 with syncStatus := SyncStatus.synced, syncMessage := "Сохранено в облако" }
      else s3
    | none =>
      if s2.live then
        { s2 with syncStatus := SyncStatus.error, syncMessage := "Ошибка сохранения" }
      else s2

/-- One machine step. -/
def mstep (pin : String) (token : Option String) (s : MachineState) :
    MEvent → MachineState
  | .mutate f =>
    if s.live then
      let next := f s.prompts
      { s with prompts := next, timer := some next }
    else s
  | .timerFire outcome now salt iv =>
    match s.timer with
    | none => s
    | some payload =>
      saveToCloud pin token payload outcome now salt iv { s with timer := none }
  | .lock => { s with live := false }

/-- Run a trace of events. -/
def mrun (pin : String) (token : Option String) (s : MachineState) :
    List MEvent → MachineState
  | [] => s
  | e :: es => mrun pin token (mstep pin token s e) es

/-- Left-to-right composition of the burst's mutations. -/
def applyAll (fs : List (List Prompt → List Prompt)) (ps : List Prompt) : List Prompt :=
  fs.foldl (fun acc f => f acc) ps

theorem mrun_append (pin : String) (token : Option String) (a b : List MEvent)
    (s : MachineState) :
    mrun pin token s (a ++ b) = mrun pin token (mrun pin token s a) b := by
  induction a generalizing s with
  | nil => rfl
  | cons e es ih => simp [mrun, ih]

theorem mrun_mutates (pin : String) (token : Option String) :
    ∀ (fs : List (List Prompt → List Prompt)) (s : MachineState),
      s.live = true → fs ≠ [] →
      mrun pin token s (fs.map MEvent.mutate)
        = { s with prompts := applyAll fs s.prompts,
                   timer := some (applyAll fs s.prompts) }
  | [], _, _, hne => absurd rfl hne
  | f :: fs, s, hlive, _ => by
    cases fs with
    | nil => simp [mrun, mstep, hlive, applyAll]
    | cons g gs =>
      have h1 : mstep pin token s (MEvent.mutate f)
          = { s with prompts := f s.prompts, timer := some (f s.prompts) } := by
        simp [mstep, hlive]
      rw [List.map_cons, mrun, h1]
      rw [mrun_mutates pin token (g :: gs) _ (by simp [hlive]) (by simp)]
      simp [applyAll]

/-- C5: a burst of N ≥ 1 mutations, each issued before the pending debounce
delay elapses (all preceding the single timer fire), results in exactly one
remote upsert, carrying the dataset that reflects all N mutations — the
final in-memory state — because each reschedule replaced the previously
pending payload, so no stale batch is ever sent. -/
theorem C5_debounce_coalescing (pin tok : String) (s : MachineState)
    (fs : List (List Prompt → List Prompt)) (outcome : Option String)
    (now : Nat) (salt iv : List Nat)
    (hlive : s.live = true) (hne : fs ≠ []) (hcalls : s.calls = []) :
    (mrun pin (some tok) s
        (fs.map MEvent.mutate ++ [MEvent.timerFire outcome now salt iv])).calls
      = [⟨s.store.gistId, ⟨applyAll fs s.prompts, 1, now⟩⟩] ∧
    (mrun pin (some tok) s
        (fs.map MEvent.mutate ++ [MEvent.timerFire outcome now salt iv])).prompts
      = applyAll fs s.prompts ∧
    (mrun pin (some tok) s
        (fs.map MEvent.mutate ++ [MEvent.timerFire outcome now salt iv])).timer
      = none := by
  rw [mrun_append, mrun_mutates pin (some tok) fs s hlive hne]
  cases outcome <;> simp [mrun, mstep, saveToCloud, hlive, hcalls]

theorem C5_witness :
    (mrun "1234" (some "TOK")
        ⟨true, [sampleP "0"], SyncStatus.idle, "", ⟨none, none, none, some "g1", none⟩,
         none, []⟩
        ([fun ps => ps ++ [sampleP "1"], fun ps => ps ++ [sampleP "2"]].map MEvent.mutate
          ++ [MEvent.timerFire (some "g1") 5 salt16 iv12])).calls
      = [⟨some "g1",
          ⟨applyAll [fun ps => ps ++ [sampleP "1"], fun ps => ps ++ [sampleP "2"]]
            [sampleP "0"], 1, 5⟩⟩] ∧
    (mrun "1234" (some "TOK")
        ⟨true, [sampleP "0"], SyncStatus.idle, "", ⟨none, none, none, some "g1", none⟩,
         none, []⟩
        ([fun ps => ps ++ [sampleP "1"], fun ps => ps ++ [sampleP "2"]].map MEvent.mutate
          ++ [MEvent.timerFire (some "g1") 5 salt16 iv12])).prompts
      = applyAll [fun ps => ps ++ [sampleP "1"], fun ps => ps ++ [sampleP "2"]]
          [sampleP "0"] ∧
    (mrun "1234" (some "TOK")
        ⟨true, [sampleP "0"], SyncStatus.idle, "", ⟨none, none, none, some "g1", none⟩,
         none, []⟩
        ([fun ps => ps ++ [sampleP "1"], fun ps => ps ++ [sampleP "2"]].map MEvent.mutate
          ++ [MEvent.timerFire (some "g1") 5 salt16 iv12])).timer
      = none :=
  C5_debounce_coalescing "1234" "TOK" _ _ (some "g1") 5 salt16 iv12 rfl (by simp) rfl

/-- C6: if the propagation's remote upsert fails (null result or a throw,
both mapped to the failure sentinel), the in-memory prompts list still
reflects every prior mutation — nothing is rolled back or discarded — the
persisted storage is untouched, and only the sync status and message change,
to `error`. -/
theorem C6_failed_upsert_keeps_edits (pin tok : String) (s : MachineState)
    (fs : List (List Prompt → List Prompt)) (now : Nat) (salt iv : List Nat)
    (hlive : s.live = true) (hne : fs ≠ []) :
    (mrun pin (some tok) s
        (fs.map MEvent.mutate ++ [MEvent.timerFire none now salt iv])).prompts
      = applyAll fs s.prompts ∧
    (mrun pin (some tok) s
        (fs.map MEvent.mutate ++ [MEvent.timerFire none now salt iv])).store
      = s.store ∧
    (mrun pin (some tok) s
        (fs.map MEvent.mutate ++ [MEvent.timerFire none now salt iv])).syncStatus
      = SyncStatus.error ∧
    (mrun pin (some tok) s
        (fs.map MEvent.mutate ++ [MEvent.timerFire none now salt iv])).syncMessage
      = "Ошибка сохранения" := by
  rw [mrun_append, mrun_mutates pin (some tok) fs s hlive hne]
  simp [mrun, mstep, saveToCloud, hlive]

theorem C6_witness :
    (mrun "1234" (some "TOK")
        ⟨true, [sampleP "0"], SyncStatus.idle, "", ⟨none, none, none, some "g1", none⟩,
         none, []⟩
        ([fun ps => ps ++ [sampleP "1"]].map MEvent.mutate
          ++ [MEvent.timerFire none 5 salt16 iv12])).prompts
      = applyAll [fun ps => ps ++ [sampleP "1"]] [sampleP "0"] ∧
    (mrun "1234" (some "TOK")
        ⟨true, [sampleP "0"], SyncStatus.idle, "", ⟨none, none, none, some "g1", none⟩,
         none, []⟩
        ([fun ps => ps ++ [sampleP "1"]].map MEvent.mutate
          ++ [MEvent.timerFire none 5 salt16 iv12])).store
      = (⟨none, none, none, some "g1", none⟩ : Store) ∧
    (mrun "1234" (some "TOK")
        ⟨true, [sampleP "0"], SyncStatus.idle, "", ⟨none, none, none, some "g1", none⟩,
         none, []⟩
        ([fun ps => ps ++ [sampleP "1"]].map MEvent.mutate
          ++ [MEvent.timerFire none 5 salt16 iv12])).syncStatus
      = SyncStatus.error ∧
    (mrun "1234" (some "TOK")
        ⟨true, [sampleP "0"], SyncStatus.idle, "", ⟨none, none, none, some "g1", none⟩,
         none, []⟩
        ([fun ps => ps ++ [sampleP "1"]].map MEvent.mutate
          ++ [MEvent.timerFire none 5 salt16 iv12])).syncMessage
      = "Ошибка сохранения" :=
  C6_failed_upsert_keeps_edits "1234" "TOK" _ _ 5 salt16 iv12 rfl (by simp)

theorem initDefaultsBranch_cancelled (pin : String) (env : InitEnv) (captured : Bool)
    (t : Nat) (st : InitResult) :
    initDefaultsBranch pin env (some 0) captured t st = st := by
  simp [initDefaultsBranch, isCancelled]

theorem initFindBranch_cancelled (pin : String) (env : InitEnv) (captured : Bool)
    (t : Nat) (st : InitResult) :
    initFindBranch pin env (some 0) captured t st
      = { st with calls := st.calls ++ [RemoteCall.find] } := by
  unfold initFindBranch
  cases env.findRes <;> simp [isCancelled, initDefaultsBranch_cancelled]

theorem initTokenBranch_cancelled (pin : String) (env : InitEnv) (captured : Bool)
    (t : Nat) (st : InitResult) :
    (initTokenBranch pin env (some 0) captured t st).prompts = st.prompts ∧
    (initTokenBranch pin env (some 0) captured t st).dataLoaded = st.dataLoaded ∧
    (initTokenBranch pin env (some 0) captured t st).store = st.store ∧
    (initTokenBranch pin env (some 0) captured t st).syncStatus = st.syncStatus ∧
    (initTokenBranch pin env (some 0) captured t st).syncMessage = st.syncMessage := by
  unfold initTokenBranch
  cases hg : st.store.gistId with
  | none => simp [isCancelled, hg, initFindBranch_cancelled]
  | some gid =>
    cases hf : env.fetchStored <;>
      simp [isCancelled, hg, hf, initDefaultsBranch_cancelled]

theorem initNoTokenBranch_cancelled (env : InitEnv) (captured : Bool) (t : Nat)
    (st : InitResult) :
    (initNoTokenBranch env (some 0) captured t st).prompts = st.prompts ∧
    (initNoTokenBranch env (some 0) captured t st).dataLoaded = st.dataLoaded ∧
    (initNoTokenBranch env (some 0) captured t st).store = st.store := by
  simp [initNoTokenBranch, isCancelled]

theorem initRest_cancelled (pin : String) (env : InitEnv) (captured : Bool)
    (t : Nat) (st : InitResult) (hasToken : Bool) :
    (initRest pin env (some 0) captured t st hasToken).prompts = st.prompts ∧
    (initRest pin env (some 0) captured t st hasToken).dataLoaded = st.dataLoaded ∧
    (initRest pin env (some 0) captured t st hasToken).store = st.store := by
  have hbranch : ∀ (t1 : Nat),
      ((if hasToken then initTokenBranch pin env (some 0) captured t1 st
        else initNoTokenBranch env (some 0) captured t1 st).prompts = st.prompts ∧
       (if hasToken then initTokenBranch pin env (some 0) captured t1 st
        else initNoTokenBranch env (some 0) captured t1 st).dataLoaded = st.dataLoaded ∧
       (if hasToken then initTokenBranch pin env (some 0) captured t1 st
        else initNoTokenBranch env (some 0) captured t1 st).store = st.store) := by
    intro t1
    cases hasToken with
    | true =>
      obtain ⟨h1, h2, h3, _, _⟩ := initTokenBranch_cancelled pin env captured t1 st
      simpa using ⟨h1, h2, h3⟩
    | false =>
      obtain ⟨h1, h2, h3⟩ := initNoTokenBranch_cancelled env captured t1 st
      simpa using ⟨h1, h2, h3⟩
  unfold initRest
  cases hc : st.store.encCache with
  | none => exact hbranch t
  | some c =>
    dsimp only
    cases hd : decrypt c pin with
    | none => exact hbranch (t + 1)
    | some json =>
      dsimp only
      cases hp : parseModel json with
      | none => exact hbranch (t + 1)
      | some cd =>
        have hcc : isCancelled (some 0) (t + 1) = true := by simp [isCancelled]
        rw [hcc]
        exact hbranch (t + 1)

/-- C9 (amended): the bootstrap effect's completion handlers check the
`cancelled` flag before their dataset commits and storage writes, so a
bootstrap torn down at its first await boundary commits no in-memory dataset,
marks nothing loaded, and leaves storage untouched; the debounced
propagation, however, checks no liveness flag at all — a save pending at
teardown still fires, issuing the remote upsert on behalf of the locked
session. -/
theorem C9_liveness_flags (pin tok : String) (store : Store) (env : InitEnv)
    (captured : Bool) (s : MachineState) (p : List Prompt)
    (outcome : Option String) (now : Nat) (salt iv : List Nat)
    (hdead : s.live = false) (htimer : s.timer = some p) :
    (init pin store env (some 0) captured).prompts = [] ∧
    (init pin store env (some 0) captured).dataLoaded = false ∧
    (init pin store env (some 0) captured).store = store ∧
    (mstep pin (some tok) s (MEvent.timerFire outcome now salt iv)).calls
      = s.calls ++ [⟨s.store.gistId, ⟨p, 1, now⟩⟩] := by
  have hinit : (init pin store env (some 0) captured).prompts = [] ∧
      (init pin store env (some 0) captured).dataLoaded = false ∧
      (init pin store env (some 0) captured).store = store := by
    unfold init
    cases ht : store.encToken with
    | none => exact initRest_cancelled pin env captured 0 _ false
    | some e =>
      dsimp only
      cases hd : decrypt e pin with
      | none => simp [initCatch, isCancelled]
      | some tok2 => exact initRest_cancelled pin env captured 1 _ true
  refine ⟨hinit.1, hinit.2.1, hinit.2.2, ?_⟩
  cases outcome <;> simp [mstep, saveToCloud, htimer, hdead]

theorem C9_witness :
    (init "1234" sampleStore ⟨some sample5, none, none, none, sampleDefaults, salt16, iv12⟩
        (some 0) false).prompts = [] ∧
    (init "1234" sampleStore ⟨some sample5, none, none, none, sampleDefaults, salt16, iv12⟩
        (some 0) false).dataLoaded = false ∧
    (init "1234" sampleStore ⟨some sample5, none, none, none, sampleDefaults, salt16, iv12⟩
        (some 0) false).store = sampleStore ∧
    (mstep "1234" (some "TOK")
        ⟨false, [sampleP "n"], SyncStatus.idle, "", ⟨none, none, none, some "g1", none⟩,
         some [sampleP "n"], []⟩
        (MEvent.timerFire (some "g2") 5 salt16 iv12)).calls
      = [] ++ [⟨some "g1", ⟨[sampleP "n"], 1, 5⟩⟩] :=
  C9_liveness_flags "1234" "TOK" sampleStore
    ⟨some sample5, none, none, none, sampleDefaults, salt16, iv12⟩ false
    ⟨false, [sampleP "n"], SyncStatus.idle, "", ⟨none, none, none, some "g1", none⟩,
     some [sampleP "n"], []⟩
    [sampleP "n"] (some "g2") 5 salt16 iv12 rfl rfl

theorem C9_counterexample :
    (mrun "1234" (some "TOK")
        ⟨true, [], SyncStatus.idle, "", ⟨none, none, none, some "g1", none⟩, none, []⟩
        [MEvent.mutate (fun ps => ps ++ [sampleP "n"]), MEvent.lock,
         MEvent.timerFire (some "g2") 5 salt16 iv12]).live = false ∧
    (mrun "1234" (some "TOK")
        ⟨true, [], SyncStatus.idle, "", ⟨none, none, none, some "g1", none⟩, none, []⟩
        [MEvent.mutate (fun ps => ps ++ [sampleP "n"]), MEvent.lock,
         MEvent.timerFire (some "g2") 5 salt16 iv12]).calls
      = [⟨some "g1", ⟨[sampleP "n"], 1, 5⟩⟩] ∧
    (mrun "1234" (some "TOK")
        ⟨true, [], SyncStatus.idle, "", ⟨none, none, none, some "g1", none⟩, none, []⟩
        [MEvent.mutate (fun ps => ps ++ [sampleP "n"]), MEvent.lock,
         MEvent.timerFire (some "g2") 5 salt16 iv12]).store.gistId = some "g2" ∧
    (mrun "1234" (some "TOK")
        ⟨true, [], SyncStatus.idle, "", ⟨none, none, none, some "g1", none⟩, none, []⟩
        [MEvent.mutate (fun ps => ps ++ [sampleP "n"]), MEvent.lock,
         MEvent.timerFire (some "g2") 5 salt16 iv12]).store.encCache
      = some (encrypt (stringifyModel ⟨[sampleP "n"], 1, 5⟩) "1234" salt16 iv12) :=
  ⟨rfl, rfl, rfl, rfl⟩

/-! ### Import (`importData`, part_000 lines 886-905)

The imported file is JSON-parsed into an untyped JS value; the only check
the source performs is `Array.isArray(data)` — entries are then appended
(minus those whose `id` matches an existing one) with no per-entry shape
validation.  Unparseable or non-array input is silently discarded inside the
`try`. -/

/-- Untyped JS value as produced by `JSON.parse`. -/
inductive JVal where
  | jnull
  | jbool (b : Bool)
  | jnum (n : Int)
  | jstr (s : String)
  | jarr (elems : List JVal)
  | jobj (fields : List (String × JVal))

mutual

/-- Structural equality on `JVal`. -/
def jvalBeq : JVal → JVal → Bool
  | .jnull, .jnull => true
  | .jbool a, .jbool b => a == b
  | .jnum a, .jnum b => a == b
  | .jstr a, .jstr b => a == b
  | .jarr a, .jarr b => jvalListEq a b
  | .jobj a, .jobj b => jvalFieldsEq a b
  | _, _ => false

/-- Structural equality on `JVal` lists. -/
def jvalListEq : List JVal → List JVal → Bool
  | [], [] => true
  | x :: xs, y :: ys => jvalBeq x y && jvalListEq xs ys
  | _, _ => false

/-- Structural equality on `JVal` field lists. -/
def jvalFieldsEq : List (String × JVal) → List (String × JVal) → Bool
  | [], [] => true
  | (k1, v1) :: xs, (k2, v2) :: ys => k1 == k2 && jvalBeq v1 v2 && jvalFieldsEq xs ys
  | _, _ => false

end

instance : BEq JVal := ⟨jvalBeq⟩

/-- JS member access `p.id` as used in the duplicate filter: objects yield
their `id` field, everything else yields `undefined` (`none`). -/
def jId : JVal → Option JVal
  | .jobj fields => fields.lookup "id"
  | _ => none

/-- Field-shape helper. -/
def fieldIs (fields : List (String × JVal)) (name : String) (pred : JVal → Bool) : Bool :=
  match fields.lookup name with
  | some v => pred v
  | none => false

/-- Is this value a string? -/
def jIsStr : JVal → Bool
  | .jstr _ => true
  | _ => false

/-- Is this value a number? -/
def jIsNum : JVal → Bool
  | .jnum _ => true
  | _ => false

/-- Structural check for a full `PromptRecord`: an object carrying all nine
typed fields of `Prompt` (`src/types.ts`). -/
def isPromptRecord (v : JVal) : Bool :=
  match v with
  | .jobj fields =>
    fieldIs fields "id" jIsStr && fieldIs fields "title" jIsStr &&
    fieldIs fields "content" jIsStr && fieldIs fields "category" jIsStr &&
    fieldIs fields "tags" (fun t => match t with
      | .jarr es => es.all jIsStr
      | _ => false) &&
    fieldIs fields "isFavorite" (fun b => match b with
      | .jbool _ => true
      | _ => false) &&
    fieldIs fields "createdAt" jIsNum && fieldIs fields "updatedAt" jIsNum &&
    fieldIs fields "usageCount" jIsNum
  | _ => false

/-- Embedding of `importData` (lines 886-905) at the dataset level: `parsed`
is the `JSON.parse` outcome (`none` = it threw).  The result pairs the new
prompts array with whether the import was applied. -/
def importApply (prev : List JVal) (parsed : Option JVal) : List JVal × Bool :=
  match parsed with
  | some (.jarr entries) =>
    let existing := prev.map jId
    (prev ++ entries.filter (fun p => !(existing.contains (jId p))), true)
  | _ => (prev, false)

/-- C10 (amended): an imported payload is accepted exactly when it parses as
JSON and is an array; its entries are then appended — minus those whose `id`
equals an existing one — with *no* per-entry structural validation; any
non-array or unparseable input is silently discarded in its entirety, with
no partial application and no error surfaced. -/
theorem C10_import_behavior (prev : List JVal) (parsed : Option JVal) :
    (∀ entries, parsed = some (.jarr entries) →
      importApply prev parsed
        = (prev ++ entries.filter (fun p => !((prev.map jId).contains (jId p))), true)) ∧
    ((∀ entries, parsed ≠ some (.jarr entries)) →
      importApply prev parsed = (prev, false)) := by
  constructor
  · intro entries hp
    subst hp
    rfl
  · intro hne
    match parsed with
    | none => rfl
    | some .jnull => rfl
    | some (.jbool b) => rfl
    | some (.jnum n) => rfl
    | some (.jstr s) => rfl
    | some (.jarr es) => exact absurd rfl (hne es)
    | some (.jobj fs) => rfl

theorem C10_witness :
    importApply [] (some (JVal.jarr [JVal.jnum 42]))
      = ([JVal.jnum 42], true) ∧
    importApply [JVal.jnum 42] (some (JVal.jstr "not an array"))
      = ([JVal.jnum 42], false) ∧
    importApply [JVal.jnum 42] none = ([JVal.jnum 42], false) :=
  ⟨(C10_import_behavior [] (some (JVal.jarr [JVal.jnum 42]))).1 [JVal.jnum 42] rfl,
   (C10_import_behavior [JVal.jnum 42] (some (JVal.jstr "not an array"))).2
     (fun entries h => by simp at h),
   (C10_import_behavior [JVal.jnum 42] none).2 (fun entries h => by simp at h)⟩

theorem C10_counterexample :
    isPromptRecord (JVal.jnum 42) = false ∧
    importApply [] (some (JVal.jarr [JVal.jnum 42])) = ([JVal.jnum 42], true) :=
  ⟨rfl, rfl⟩
